import Mathlib

/-!
MERSENNAA — verification of the candidate-discovery pipeline

Shallow embedding of the repository's core routines, translated from the
Python sources:

* `advanced_mersenne_prime_finder.py`   — namespace `AdvancedFinder`
* `enhanced_mersenne_discovery.py`      — namespace `Enhanced`
* `revolutionary_mersenne_discovery.py` — namespace `Revolutionary`
* `advanced_candidate_generator.py`     — namespace `AdvGen`
* `deprecated_python_files/prime95_integration.py`       — namespace `P95`
* `deprecated_python_files/fixed_prime95_integration.py` — namespace `FixedP95`

Python arbitrary-precision integers are modelled by `Int`/`Nat`; Python's
`%` on a positive modulus agrees with `Int.emod` (both return a value in
`[0, m)`).  Wall-clock time, which the sources read with `time.time()`, is
modelled by a Boolean oracle giving, per loop iteration, whether the elapsed
time has exceeded the budget.  Pseudo-random draws (`random.randint`,
`np.random.*`) are modelled by explicit oracle streams.  Loops whose Python
form is `while` are modelled with an explicit fuel argument; every such loop
terminates in the source, and every theorem below holds for all fuel values,
so the theorems apply in particular to the fuel that matches the source run.

The file is organised as a block of definitions followed by a block of
theorems.
-/

namespace MR

/-!
Shared modular-arithmetic fragments of the Miller–Rabin tests.  The Python
sources use the built-in three-argument `pow(a, d, n)` (modular
exponentiation) and the textually identical witness-loop fragment in
`enhanced_mersenne_discovery.is_prime` and
`advanced_mersenne_prime_finder._is_probably_prime`.
-/

/-- Square-and-multiply modular exponentiation; the fuel argument only
bounds the recursion and `b` halvings never exhaust fuel `b`. -/
def powModAux (n : Nat) : Nat → Nat → Nat → Nat
  | 0, _, _ => 1 % n
  | fuel + 1, a, b =>
      if b = 0 then 1 % n
      else
        let half := powModAux n fuel (a * a % n) (b / 2)
        if b % 2 = 1 then half * a % n else half

/-- Python's `pow(a, b, n)`. -/
def powMod (a b n : Nat) : Nat := powModAux n b (a % n) b

/-- The `while d % 2 == 0: d //= 2; r += 1` loop: write the input as
`d * 2^r` with `d` odd.  Fuel-bounded; for inputs `≥ 1` fuel equal to the
input always suffices. -/
def factorTwoAux : Nat → Nat → Nat × Nat
  | 0, d => (d, 0)
  | fuel + 1, d =>
      if d % 2 = 0 then
        let q := factorTwoAux fuel (d / 2)
        (q.1, q.2 + 1)
      else (d, 0)

/-- `d, r` such that the input is `d * 2^r`, `d` odd. -/
def factorTwo (d : Nat) : Nat × Nat := factorTwoAux d d

/-- The inner `for _ in range(r-1): x = pow(x, 2, n); if x == n-1: break`
loop with its `else: return False` clause: `true` iff some square reaches
`n - 1` within the round budget. -/
def mrCheckLoop (n : Nat) : Nat → Nat → Bool
  | _, 0 => false
  | x, fuel + 1 =>
      let x2 := x * x % n
      if x2 = n - 1 then true else mrCheckLoop n x2 fuel

/-- One Miller–Rabin round for base `a`: `x = pow(a, d, n)`; pass if
`x == 1 or x == n - 1`, else run the square loop `r - 1` times. -/
def mrRoundCore (n d r a : Nat) : Bool :=
  let x := powMod a d n
  if x = 1 ∨ x = n - 1 then true
  else mrCheckLoop n x (r - 1)

/-- A round as run by `enhanced_mersenne_discovery.is_prime`, whose base
loop starts with `if a >= n: continue`. -/
def mrRound (n d r a : Nat) : Bool :=
  if n ≤ a then true else mrRoundCore n d r a

end MR

namespace AdvancedFinder

/-- `KNOWN_MERSENNE_EXPONENTS` from `advanced_mersenne_prime_finder.py`.
The identical 51-element list literal (the source's comment says "first 52"
but the literal has 51 entries) also appears as
`self.known_mersenne_primes` in `enhanced_mersenne_discovery.py`,
`revolutionary_mersenne_discovery.py` and `advanced_candidate_generator.py`. -/
def KNOWN_MERSENNE_EXPONENTS : List Nat :=
  [2, 3, 5, 7, 13, 17, 19, 31, 61, 89, 107, 127, 521, 607, 1279, 2203, 2281,
   3217, 4253, 4423, 9689, 9941, 11213, 19937, 21701, 23209, 44497, 86243,
   110503, 132049, 216091, 756839, 859433, 1257787, 1398269, 2976221,
   3021377, 6972593, 13466917, 20996011, 24036583, 25964951, 30402457,
   32582657, 37156667, 42643801, 43112609, 57885161, 74207281, 77232917,
   82589933]

/-- `LATEST_KNOWN_EXPONENT` from `advanced_mersenne_prime_finder.py`. -/
def LATEST_KNOWN_EXPONENT : Nat := 82589933

/-- One Lucas–Lehmer step, `s = (s * s - 2) % m` from `_lucas_lehmer_test`. -/
def llStep (m s : Int) : Int := (s * s - 2) % m

/-- The `for _ in range(k)` loop of `_lucas_lehmer_test`. -/
def llIter (m : Int) : Nat → Int → Int
  | 0, s => s
  | k + 1, s => llIter m k (llStep m s)

/-- `_lucas_lehmer_test` from `advanced_mersenne_prime_finder.py`:
`p == 2` returns `True`; otherwise `s = 4`, `m = (1 << p) - 1`,
iterate `s = (s * s - 2) % m` exactly `p - 2` times, return `s == 0`. -/
def lucas_lehmer_test (p : Nat) : Bool :=
  if p = 2 then true
  else llIter ((2 : Int) ^ p - 1) (p - 2) 4 == 0

/-- The spec's description of the same recurrence (§4.4): `s₀ = 4`,
`s_{k+1} = (s_k² - 2) mod (2^p - 1)`. -/
def llSpecSeq (p : Nat) : Nat → Int
  | 0 => 4
  | k + 1 => (llSpecSeq p k ^ 2 - 2) % ((2 : Int) ^ p - 1)

/-- `_is_probably_prime` from `advanced_mersenne_prime_finder.py`: the
`k`-round (default 20) probabilistic Miller–Rabin test.  The base drawn by
`random.randint(2, n - 2)` at round `i` is modelled by the oracle `randA i`. -/
def is_probably_prime (randA : Nat → Nat) (n : Nat) (k : Nat := 20) : Bool :=
  if n < 2 then false
  else if n = 2 ∨ n = 3 then true
  else if n % 2 = 0 then false
  else
    (List.range k).all (fun i =>
      MR.mrRoundCore n (MR.factorTwo (n - 1)).1 (MR.factorTwo (n - 1)).2
        (randA i))

/-- The `SearchState` dataclass of `advanced_mersenne_prime_finder.py`. -/
structure SearchState where
  last_exponent_tested : Nat := 0
  prime95_results_offset : Nat := 0
  total_candidates_tested : Nat := 0
  total_primes_found : Nat := 0
  deriving Repr, DecidableEq

/-- Python's `max(l)` for a nonempty list of naturals. -/
def listMax (l : List Nat) : Nat := l.foldl max 0

/-- `max_testable = 5000  # Python LL test limit` in `test_candidates`. -/
def max_testable : Nat := 5000

/-- `test_candidates` from `advanced_mersenne_prime_finder.py` in its
Python-Lucas–Lehmer branch (`use_prime95_ll=False`): an empty batch returns
immediately; otherwise each candidate `p ≤ max_testable` is tested with
`_lucas_lehmer_test` and the found primes collected, then the state is
updated with `last_exponent_tested = max(last_exponent_tested,
max(candidates))`, `total_candidates_tested += len(candidates)` and
`total_primes_found` increased by the number of primes found.  (The
Prime95-delegation branch performs the very same
`last_exponent_tested = max(...)` update.) -/
def test_candidates (st : SearchState) (candidates : List Nat) :
    List Nat × SearchState :=
  if candidates = [] then ([], st)
  else
    let mersenne_primes :=
      (candidates.filter (fun p => p ≤ max_testable)).filter
        (fun p => lucas_lehmer_test p)
    (mersenne_primes,
     { st with
        total_primes_found := st.total_primes_found + mersenne_primes.length,
        last_exponent_tested :=
          max st.last_exponent_tested (listMax candidates),
        total_candidates_tested :=
          st.total_candidates_tested + candidates.length })

/-- The resume filter of `run_search`:
`start_after = max(LATEST_KNOWN_EXPONENT, self.state.last_exponent_tested)`,
`filtered_candidates = [p for p in all_candidates if p > start_after]`. -/
def filter_candidates_for_testing (st : SearchState) (all_candidates : List Nat) :
    List Nat :=
  all_candidates.filter
    (fun p => max LATEST_KNOWN_EXPONENT st.last_exponent_tested < p)

end AdvancedFinder

namespace Enhanced

/-- `self.known_mersenne_primes` of `enhanced_mersenne_discovery.py`
(the same 51-element list literal as in `advanced_mersenne_prime_finder.py`). -/
def known_mersenne_primes : List Nat := AdvancedFinder.KNOWN_MERSENNE_EXPONENTS

/-- `self.last_known_exponent = max(self.known_mersenne_primes)`. -/
def last_known_exponent : Nat := known_mersenne_primes.foldl max 0

/-- The deterministic witness-set table of `is_prime` in
`enhanced_mersenne_discovery.py`: `[2,3]` below 1,373,653; `[31,73]` below
9,080,191; `[2,7,61]` below 4,759,123,141; the fixed set
`[2,3,5,7,11,13,17]` at or above that threshold. -/
def mrBases (n : Nat) : List Nat :=
  if n < 1373653 then [2, 3]
  else if n < 9080191 then [31, 73]
  else if n < 4759123141 then [2, 7, 61]
  else [2, 3, 5, 7, 11, 13, 17]

/-- `is_prime` from `enhanced_mersenne_discovery.py`: trial small cases,
write `n - 1 = d * 2^r`, then run a Miller–Rabin round for every base in
the threshold table. -/
def is_prime (n : Nat) : Bool :=
  if n < 2 then false
  else if n = 2 then true
  else if n % 2 = 0 then false
  else if n < 9 then true
  else if n % 3 = 0 then false
  else
    (mrBases n).all (fun a =>
      MR.mrRound n (MR.factorTwo (n - 1)).1 (MR.factorTwo (n - 1)).2 a)

/-- The Miller–Rabin screen of the spec's §4.3 contract: the rounds run by
`is_prime` over the threshold witness table, without the small-case
shortcuts (used to state what `is_valid_mersenne_exponent_candidate`
guarantees). -/
def mrScreen (n : Nat) : Bool :=
  (mrBases n).all (fun a =>
    MR.mrRound n (MR.factorTwo (n - 1)).1 (MR.factorTwo (n - 1)).2 a)

/-- Binary digit count by repeated halving (fuel-bounded; fuel equal to the
input always suffices). -/
def bitLengthAux : Nat → Nat → Nat
  | 0, _ => 0
  | fuel + 1, p => if p = 0 then 0 else bitLengthAux fuel (p / 2) + 1

/-- `len(bin(p)[2:])`: the number of binary digits of `p` (Python renders
`0` as the single digit `0`). -/
def bitLength (p : Nat) : Nat := if p = 0 then 1 else bitLengthAux p p

/-- `is_valid_mersenne_exponent_candidate` from
`enhanced_mersenne_discovery.py`, with its rejection tests in source order.
The `binary.startswith('1')` test fails only for `p = 0` (Python renders
`bin(0)` as `0b0`). -/
def is_valid_mersenne_exponent_candidate (p : Nat) : Bool :=
  if p ≤ last_known_exponent then false
  else if p % 2 = 0 then false
  else if is_prime p = false then false
  else if ¬ (p % 4 = 1 ∨ p % 4 = 3) then false
  else if 3 < p ∧ ¬ (p % 6 = 1 ∨ p % 6 = 5) then false
  else if 5 < p ∧ ¬ (p % 10 = 1 ∨ p % 10 = 3 ∨ p % 10 = 7 ∨ p % 10 = 9)
    then false
  else if p = 0 then false
  else if bitLength p < 20 then false
  else if p % 210 % 2 = 0 ∨ p % 210 % 3 = 0 ∨ p % 210 % 5 = 0
      ∨ p % 210 % 7 = 0 then false
  else true

/-- The float-valued pattern statistics feeding
`generate_candidates_after_52nd`, plus its seeded random stream, as explicit
parameters.  `wExpGtHalf` is the test `weights["exponential"] > 0.5` (with
the 52-entry registry the growth rate ≈ 0.2015 is clamped up to 0.3, so the
test is false); `grow current` is `int(current * (1 + weights["exponential"]
* 0.1))`; `avgGapPos` is `weights["avg_gap"] > 0` (true: the mean gap is
positive); `gapInit` is `last_known_exponent + int(weights["avg_gap"])`;
`gapStep` is `int(weights["avg_gap"] * 1.1)`; `mods` is the top-3 residues
`common_mods[:3]` of the mod-210 frequency table; `bf i` is the `i`-th draw
`random.randint(effective_start, end)` of the stream freshly reseeded with
`random.seed(42)`. -/
structure GenParams where
  wExpGtHalf : Bool
  grow : Nat → Nat
  avgGapPos : Bool
  gapInit : Nat
  gapStep : Nat
  mods : List Nat
  bf : Nat → Nat

/-- Strategy 1 of `generate_candidates_after_52nd` (exponential progression
with filtering): from `current = effective_start`, while `current < end` and
fewer than `count // 3` candidates, compute `next = grow current`; if
`current < next < end`, append `next` when it passes the validity filter and
move to it, else step `current` by 2. -/
def genStrat1 (valid : Nat → Bool) (grow : Nat → Nat) (endR cap : Nat) :
    Nat → Nat → List Nat → List Nat
  | 0, _, acc => acc
  | fuel + 1, current, acc =>
      if current < endR ∧ acc.length < cap then
        let next := grow current
        if current < next ∧ next < endR then
          genStrat1 valid grow endR cap fuel next
            (if valid next then acc ++ [next] else acc)
        else genStrat1 valid grow endR cap fuel (current + 2) acc
      else acc

/-- Strategy 1 with its `weights["exponential"] > 0.5` guard. -/
def strat1Stage (valid : Nat → Bool) (P : GenParams)
    (fuel effStart endR count : Nat) : List Nat :=
  if P.wExpGtHalf then
    genStrat1 valid P.grow endR (count / 3) fuel effStart []
  else []

/-- Strategy 2 of `generate_candidates_after_52nd` (gap-based prediction):
from `predicted = gapInit`, while `predicted < end` and fewer than
`count // 3` candidates, append `predicted` when it exceeds
`effective_start` and passes the filter, then advance by `gapStep`. -/
def genStrat2 (valid : Nat → Bool) (effStart endR cap gapStep : Nat) :
    Nat → Nat → List Nat → List Nat
  | 0, _, acc => acc
  | fuel + 1, predicted, acc =>
      if predicted < endR ∧ acc.length < cap then
        genStrat2 valid effStart endR cap gapStep fuel (predicted + gapStep)
          (if effStart < predicted ∧ valid predicted then acc ++ [predicted]
           else acc)
      else acc

/-- Strategy 2 with its `weights["avg_gap"] > 0` guard. -/
def strat2Stage (valid : Nat → Bool) (P : GenParams)
    (fuel effStart endR count : Nat) (acc : List Nat) : List Nat :=
  if P.avgGapPos then
    genStrat2 valid effStart endR (count / 3) P.gapStep fuel P.gapInit acc
  else acc

/-- One residue class of strategy 3 of `generate_candidates_after_52nd`:
from `current = effective_start - effective_start % 210 + mod`, while
`current < end` and fewer than `count // 6` candidates, append `current`
when it exceeds `effective_start` and passes the filter, stepping by 210. -/
def genStrat3One (valid : Nat → Bool) (effStart endR cap : Nat) :
    Nat → Nat → List Nat → List Nat
  | 0, _, acc => acc
  | fuel + 1, current, acc =>
      if current < endR ∧ acc.length < cap then
        genStrat3One valid effStart endR cap fuel (current + 210)
          (if effStart < current ∧ valid current then acc ++ [current]
           else acc)
      else acc

/-- Strategy 3 of `generate_candidates_after_52nd`: iterate
`genStrat3One` over the chosen residues (`common_mods[:3]`; the
`"mod_patterns" in weights` guard is always true since
`_analyze_known_patterns` stores that key). -/
def genStrat3 (valid : Nat → Bool) (effStart endR cap fuel : Nat)
    (mods : List Nat) (acc : List Nat) : List Nat :=
  mods.foldl
    (fun a m =>
      genStrat3One valid effStart endR cap fuel
        (effStart - effStart % 210 + m) a) acc

/-- The `if candidate % 2 == 0: candidate += 1` bump of strategy 4. -/
def bumpOdd (c0 : Nat) : Nat := if c0 % 2 = 0 then c0 + 1 else c0

/-- Strategy 4 of `generate_candidates_after_52nd` (seeded random sampling):
up to `max_attempts` attempts while fewer than `count` candidates, draw
`candidate = bf attempt`, bump even draws by 1, and append when new,
`≤ end`, and passing the filter. -/
def genStrat4 (valid : Nat → Bool) (endR count : Nat) (bf : Nat → Nat) :
    Nat → Nat → List Nat → List Nat
  | 0, _, acc => acc
  | fuel + 1, attempt, acc =>
      if acc.length < count then
        genStrat4 valid endR count bf fuel (attempt + 1)
          (if bumpOdd (bf attempt) ∉ acc ∧ bumpOdd (bf attempt) ≤ endR
              ∧ valid (bumpOdd (bf attempt))
           then acc ++ [bumpOdd (bf attempt)] else acc)
      else acc

/-- Strategy 4 with its `remaining > 0` guard and the
`max_attempts = remaining * 10` attempt budget. -/
def strat4Stage (valid : Nat → Bool) (P : GenParams) (endR count : Nat)
    (acc : List Nat) : List Nat :=
  if 0 < count - acc.length then
    genStrat4 valid endR count P.bf ((count - acc.length) * 10) 0 acc
  else acc

/-- Python's `sorted(list(set(l)))`. -/
def sortedSet (l : List Nat) : List Nat :=
  (l.dedup).insertionSort (· ≤ ·)

/-- `generate_candidates_after_52nd` from `enhanced_mersenne_discovery.py`:
`effective_start = max(start, last_known_exponent + 1)`; if it exceeds
`end` return the empty list; otherwise run strategies 1–4 accumulating into
one candidate list, then `sorted(list(set(candidates)))[:count]`.  (The
advanced-pattern-analyzer branch is disabled in the source by
`if False and self.pattern_analyzer`.) -/
def generate_candidates_after_52nd (P : GenParams) (fuel : Nat)
    (start endR count : Nat) : List Nat :=
  if endR < max start (last_known_exponent + 1) then []
  else
    (sortedSet
      (strat4Stage is_valid_mersenne_exponent_candidate P endR count
        (genStrat3 is_valid_mersenne_exponent_candidate
          (max start (last_known_exponent + 1)) endR (count / 6) fuel P.mods
          (strat2Stage is_valid_mersenne_exponent_candidate P fuel
            (max start (last_known_exponent + 1)) endR count
            (strat1Stage is_valid_mersenne_exponent_candidate P fuel
              (max start (last_known_exponent + 1)) endR count))))).take count

/-- The `for i in range(p - 2)` loop of `lucas_lehmer_test` in
`enhanced_mersenne_discovery.py`.  At iteration index `i` the code first
compares the elapsed wall-clock time against the budget — modelled by the
oracle `timedOut` — and on excess returns early (`return False, elapsed`),
modelled as `none`; otherwise it performs `s = (s * s - 2) % M`.  `some s`
is the state after the loop has run to completion. -/
def llTimedLoop (m : Int) (timedOut : Nat → Bool) : Nat → Nat → Int → Option Int
  | _, 0, s => some s
  | i, k + 1, s =>
      if timedOut i then none
      else llTimedLoop m timedOut (i + 1) k (AdvancedFinder.llStep m s)

/-- `lucas_lehmer_test` from `enhanced_mersenne_discovery.py` (the function
body is textually identical in `revolutionary_mersenne_discovery.py`): of the
returned pair `(is_prime, elapsed_time)` this models the verdict component
`is_prime`.  On `p == 2` the code returns `True`; on timeout it returns
`False` — the same Boolean it returns for a composite; on completion it
returns `s == 0`. -/
def lucas_lehmer_test (timedOut : Nat → Bool) (p : Nat) : Bool :=
  if p = 2 then true
  else
    match llTimedLoop ((2 : Int) ^ p - 1) timedOut 0 (p - 2) 4 with
    | none => false
    | some s => s == 0

/-- Whether the `for` loop of `lucas_lehmer_test` runs to completion under
the given time oracle (instrumentation of the embedding; `p == 2` takes the
early `return True` and is counted as complete). -/
def lucas_lehmer_completes (timedOut : Nat → Bool) (p : Nat) : Bool :=
  if p = 2 then true
  else (llTimedLoop ((2 : Int) ^ p - 1) timedOut 0 (p - 2) 4).isSome

/-- `test_candidate_with_ll` from `enhanced_mersenne_discovery.py`,
instrumented: the first component is the exponent of the returned discovery
dict (`none` when the function returns `None`), the second records whether
`lucas_lehmer_test` was invoked.  The source returns `None` when
`candidate <= 1 or candidate % 2 == 0`, then returns `None` when
`candidate in self.known_mersenne_primes` — before any Lucas–Lehmer work —
and otherwise runs `lucas_lehmer_test(candidate, timeout=60.0)`. -/
def test_candidate_with_ll (timedOut : Nat → Bool) (candidate : Nat) :
    Option Nat × Bool :=
  if candidate ≤ 1 ∨ candidate % 2 = 0 then (none, false)
  else if candidate ∈ known_mersenne_primes then (none, false)
  else
    (if lucas_lehmer_test timedOut candidate then some candidate else none,
     true)

end Enhanced

namespace Revolutionary

/-- `self.known_mersenne_primes` of `revolutionary_mersenne_discovery.py`
(same list literal again). -/
def known_mersenne_primes : List Nat := AdvancedFinder.KNOWN_MERSENNE_EXPONENTS

/-- `lucas_lehmer_test` from `revolutionary_mersenne_discovery.py`; its body
is textually identical to the one in `enhanced_mersenne_discovery.py`, so it
is modelled by the same function. -/
def lucas_lehmer_test (timedOut : Nat → Bool) (p : Nat) : Bool :=
  Enhanced.lucas_lehmer_test timedOut p

/-- `test_candidate` from `revolutionary_mersenne_discovery.py`, instrumented
exactly like `Enhanced.test_candidate_with_ll` (the two functions differ only
in the fields of the returned discovery dict). -/
def test_candidate (timedOut : Nat → Bool) (candidate : Nat) :
    Option Nat × Bool :=
  if candidate ≤ 1 ∨ candidate % 2 = 0 then (none, false)
  else if candidate ∈ known_mersenne_primes then (none, false)
  else
    (if lucas_lehmer_test timedOut candidate then some candidate else none,
     true)

end Revolutionary

namespace AdvGen

/-- `self.known_mersenne_primes` of `advanced_candidate_generator.py`
(same list literal again). -/
def known_mersenne_primes : List Nat := AdvancedFinder.KNOWN_MERSENNE_EXPONENTS

/-- The float statistics and random draws consumed by
`generate_intelligent_candidates` in `advanced_candidate_generator.py`, as
explicit parameters.  `incr k` is the `k`-th increment
`int(current * growth_rate * (0.8 + 0.4 * np.random.random()))` of the
exponential strategy — an UNSEEDED `np.random` draw; `gap k` is the `k`-th
step `int(gap_mean + np.random.normal(0, gap_std * 0.5))` — unseeded, and
possibly negative; `pm` is `preferred_mod_210`; `sel c` is the outcome of
the unseeded acceptance draw `np.random.random() < weight` for candidate
`c` — consulted only where the weight lies strictly between 0 and 1, i.e.
for `1000 ≤ c < 1000000` (see
`generate_candidates_density_weighted` below); `bf i` is the `i`-th
backfill draw `random.randint(start, end)` after `random.seed(42)`. -/
structure AdvOracles where
  incr : Nat → Nat
  gap : Nat → Int
  pm : Nat
  sel : Nat → Bool
  bf : Nat → Nat

/-- The five per-strategy quotas of `generate_intelligent_candidates`:
`int(count * 0.3)`, `int(count * 0.25)`, `int(count * 0.2)`,
`int(count * 0.15)`, `int(count * 0.1)` (Python evaluates these in floating
point; at the counts used below they agree with the exact values). -/
structure AdvCounts where
  expCount : Nat
  gapCount : Nat
  modCount : Nat
  densityCount : Nat
  twinCount : Nat

/-- The loop of `generate_candidates_exponential`: while `current < end`
and below quota, append `current` (unconditionally) and advance by
`max(1, incr)`. -/
def genExpAux (incr : Nat → Nat) (endR count : Nat) :
    Nat → Nat → Nat → List Nat → List Nat
  | 0, _, _, acc => acc
  | fuel + 1, k, current, acc =>
      if current < endR ∧ acc.length < count then
        genExpAux incr endR count fuel (k + 1) (current + max 1 (incr k))
          (acc ++ [current])
      else acc

/-- `generate_candidates_exponential` from
`advanced_candidate_generator.py`. -/
def generate_candidates_exponential (incr : Nat → Nat)
    (startR endR count fuel : Nat) : List Nat :=
  genExpAux incr endR count fuel 0 startR []

/-- The loop of `generate_candidates_gap_based`: while `current < end` and
below quota, append `current` and advance by `max(1, gap)` (the drawn gap
may be negative). -/
def genGapAux (gap : Nat → Int) (endR count : Nat) :
    Nat → Nat → Nat → List Nat → List Nat
  | 0, _, _, acc => acc
  | fuel + 1, k, current, acc =>
      if current < endR ∧ acc.length < count then
        genGapAux gap endR count fuel (k + 1)
          (current + (max 1 (gap k)).toNat) (acc ++ [current])
      else acc

/-- `generate_candidates_gap_based` from `advanced_candidate_generator.py`. -/
def generate_candidates_gap_based (gap : Nat → Int)
    (startR endR count fuel : Nat) : List Nat :=
  genGapAux gap endR count fuel 0 startR []

/-- The loop of `generate_candidates_modulo`: step by 210 from the aligned
start, appending unconditionally while `current < end` and below quota. -/
def genModAux (endR count : Nat) : Nat → Nat → List Nat → List Nat
  | 0, _, acc => acc
  | fuel + 1, current, acc =>
      if current < endR ∧ acc.length < count then
        genModAux endR count fuel (current + 210) (acc ++ [current])
      else acc

/-- `generate_candidates_modulo` from `advanced_candidate_generator.py`:
`current = start - start % 210 + preferred_mod_210`, bumped by 210 when
below `start`, then step by 210. -/
def generate_candidates_modulo (pm : Nat) (startR endR count fuel : Nat) :
    List Nat :=
  genModAux endR count fuel
    (if startR - startR % 210 + pm < startR then startR - startR % 210 + pm + 210
     else startR - startR % 210 + pm) []

/-- `generate_candidates_density_weighted` from
`advanced_candidate_generator.py`.  The density map covers exactly
`1 ≤ i < min(1000000, end)` (the four registry ranges clipped at `end`),
so it is nonempty iff `end ≥ 2`, and in that case the strategy walks
`range(start, end)` accepting candidate `c` when
`np.random.random() < weight` with
`weight = density_map.get(c, 0.1) / max_density` and
`max_density = 14/999` (the `[1,1000)` density).  That weight is `1.0` for
`c < 1000` and `≈ 7.14 > 1` for unmapped `c` (in particular all
`c ≥ 1000000`), where `np.random.random() < weight` holds for EVERY
possible draw, so acceptance there is forced; it is `≈ 0.0634`, `≈ 0.0048`
and `≈ 0.0004` on the three remaining mapped bands — strictly between 0
and 1, so only for `1000 ≤ c < 1000000` does the draw `sel c` genuinely
take both outcomes. -/
def generate_candidates_density_weighted (sel : Nat → Bool)
    (startR endR count : Nat) : List Nat :=
  if 2 ≤ endR then
    (List.range' startR (endR - startR)).foldl
      (fun acc c =>
        if (if 1000 ≤ c ∧ c < 1000000 then sel c else true)
            ∧ acc.length < count
        then acc ++ [c] else acc) []
  else []

/-- `generate_candidates_twin_focused` from
`advanced_candidate_generator.py`: walk `range(start, end)` keeping the
candidates within ±2 of a known exponent, until the quota is reached. -/
def generate_candidates_twin_focused (startR endR count : Nat) : List Nat :=
  (List.range' startR (endR - startR)).foldl
    (fun acc c =>
      if acc.length < count ∧
          (c - 2 ∈ known_mersenne_primes ∨ c + 2 ∈ known_mersenne_primes)
      then acc ++ [c] else acc) []

/-- The `for _ in range(remaining)` backfill loop of
`generate_intelligent_candidates`: append each seeded draw not already
present. -/
def backfillAux (bf : Nat → Nat) : Nat → Nat → List Nat → List Nat
  | 0, _, acc => acc
  | fuel + 1, i, acc =>
      backfillAux bf fuel (i + 1)
        (if bf i ∈ acc then acc else acc ++ [bf i])

/-- `generate_intelligent_candidates` from
`advanced_candidate_generator.py`: concatenate the five strategies'
candidates, `sorted(list(set(...)))`, backfill with seeded draws up to
`count` when short, sort again and truncate to `count`. -/
def generate_intelligent_candidates (O : AdvOracles) (C : AdvCounts)
    (fuel startR endR count : Nat) : List Nat :=
  let all_candidates :=
    generate_candidates_exponential O.incr startR endR C.expCount fuel
      ++ generate_candidates_gap_based O.gap startR endR C.gapCount fuel
      ++ generate_candidates_modulo O.pm startR endR C.modCount fuel
      ++ generate_candidates_density_weighted O.sel startR endR
          C.densityCount
      ++ generate_candidates_twin_focused startR endR C.twinCount
  let unique := Enhanced.sortedSet all_candidates
  let unique :=
    if unique.length < count then
      backfillAux O.bf (count - unique.length) 0 unique
    else unique
  (unique.insertionSort (· ≤ ·)).take count

end AdvGen

namespace P95

/-- Python's `str.upper()` on a single ASCII character. -/
def upperChar (c : Char) : Char :=
  if 'a' ≤ c ∧ c ≤ 'z' then Char.ofNat (c.toNat - 32) else c

/-- Python's `mode.upper()` (the mode strings are ASCII). -/
def upperStr (s : String) : String := ⟨s.data.map upperChar⟩

/-- The generating expression of `generate_worktodo_lines`:
`sorted(set(int(x) for x in exponents if x and x > 1))` — the distinct
exponents exceeding 1, in ascending order (`x and x > 1` is equivalent to
`x > 1`, since `0` is falsy). -/
def eligibleExponents (exponents : List Nat) : List Nat :=
  ((exponents.filter (fun x => 1 < x)).dedup).insertionSort (· ≤ ·)

/-- The per-exponent instruction line of `generate_worktodo_lines`, keyed
by `mode.upper()`: `Test=p` for LL (and for unrecognised modes), `PRP=p,1`
for PRP, `Pfactor=p` for PFACTOR. -/
def formatLine (mode : String) (p : Nat) : String :=
  if upperStr mode = "LL" then "Test=" ++ Nat.repr p
  else if upperStr mode = "PRP" then "PRP=" ++ Nat.repr p ++ ",1"
  else if upperStr mode = "PFACTOR" then "Pfactor=" ++ Nat.repr p
  else "Test=" ++ Nat.repr p

/-- `generate_worktodo_lines` from
`deprecated_python_files/prime95_integration.py`. -/
def generate_worktodo_lines (exponents : List Nat) (mode : String) :
    List String :=
  (eligibleExponents exponents).map (formatLine mode)

/-- Python's `\s` whitespace class (ASCII). -/
def isSpace (c : Char) : Bool :=
  c = ' ' || c = '\t' || c = '\n' || c = '\r' || c = '\x0b' || c = '\x0c'

/-- Python's `\d` digit class (ASCII). -/
def isDigit (c : Char) : Bool := '0' ≤ c && c ≤ '9'

/-- `int(...)` applied to a nonempty decimal digit string. -/
def digitsToNat (ds : List Char) : Nat :=
  ds.foldl (fun n c => 10 * n + (c.toNat - '0'.toNat)) 0

/-- Iterating a Python text file yields its lines; the source then strips
the trailing newline of each (`line.rstrip('\n')`).  Equivalently: split the
content on `'\n'` and drop a final empty fragment. -/
def splitLines (content : List Char) : List (List Char) :=
  let parts := content.splitOn '\n'
  match parts.getLast? with
  | some [] => parts.dropLast
  | _ => parts

/-- `parse_results` from `deprecated_python_files/prime95_integration.py`.
The results file is modelled as `none` (path does not exist) or
`some content`.  A missing file yields `([], since_bytes)`; otherwise the
file is read from byte offset `min since_bytes size` to the end and the new
offset is the file size.  (ASCII content: one byte per character.) -/
def parse_results (file : Option (List Char)) (since_bytes : Nat) :
    List (List Char) × Nat :=
  match file with
  | none => ([], since_bytes)
  | some content =>
      let size := content.length
      let start := min since_bytes size
      (splitLines (content.drop start), size)

/-- Case-insensitive literal matcher: consumes `pat` (given lowercase)
from the head of the input. -/
def litMatch : List Char → List Char → Option (List Char)
  | [], l => some l
  | c :: cs, l =>
      match l with
      | [] => none
      | d :: ds => if d.toLower = c then litMatch cs ds else none

/-- `\s+` followed by greedy absorption of further whitespace. -/
def spaces1 : List Char → Option (List Char)
  | [] => none
  | c :: rest => if isSpace c then some (rest.dropWhile isSpace) else none

/-- Attempt to match the regex `M\(\s*(\d+)\s*\)\s+is\s+prime`
(`re.IGNORECASE`) at the head of the input, returning the captured exponent.
The greedy classes `\d+`/`\s*`/`\s+` are each followed by a character from a
disjoint class, so deterministic maximal munch is equivalent to the regex. -/
def matchAt (l : List Char) : Option Nat := do
  let l ← litMatch ['m', '('] l
  let l := l.dropWhile isSpace
  let ds := l.takeWhile isDigit
  if ds = [] then none
  else do
    let l := l.dropWhile isDigit
    let l := l.dropWhile isSpace
    let l ← litMatch [')'] l
    let l ← spaces1 l
    let l ← litMatch ['i', 's'] l
    let l ← spaces1 l
    let _ ← litMatch ['p', 'r', 'i', 'm', 'e'] l
    pure (digitsToNat ds)

/-- `re.search`: try the pattern at every start position, returning the
first(-position) match. -/
def reSearch : List Char → Option Nat
  | [] => none
  | c :: cs =>
      match matchAt (c :: cs) with
      | some n => some n
      | none => reSearch cs

/-- `extract_confirmed_mersenne_primes` from
`deprecated_python_files/prime95_integration.py`: for each line, search for
the confirmation phrase and collect the parsed exponent. -/
def extract_confirmed_mersenne_primes (lines : List (List Char)) : List Nat :=
  lines.filterMap reSearch

/-- The dict returned by `parse_mersenne_findings`. -/
structure Findings where
  confirmed_exponents : List Nat
  new_offset : Nat
  lines : List (List Char)
  deriving DecidableEq, Repr

/-- `parse_mersenne_findings` from
`deprecated_python_files/prime95_integration.py`: compose `parse_results`
with `extract_confirmed_mersenne_primes`. -/
def parse_mersenne_findings (file : Option (List Char)) (since_bytes : Nat) :
    Findings :=
  let parsed := parse_results file since_bytes
  { confirmed_exponents := extract_confirmed_mersenne_primes parsed.1
    new_offset := parsed.2
    lines := parsed.1 }

end P95

namespace FixedP95

/-- `parse_results` from
`deprecated_python_files/fixed_prime95_integration.py`: for a missing path
it returns `([], since_bytes)` exactly like the original, and for an
existing readable file its seek/read/rstrip logic is textually equivalent
to the original, so it is modelled by the same function.  (Its extra
`except (OSError, IOError)` arm concerns I/O faults outside this model.) -/
def parse_results (file : Option (List Char)) (since_bytes : Nat) :
    List (List Char) × Nat :=
  P95.parse_results file since_bytes

/-- The file-system state touched by `write_worktodo`: the work file's
content (`none` when the path does not exist) and the contents that have
been copied into timestamped `.bak` backup files. -/
structure WorkFS where
  worktodo : Option String := none
  backups : List String := []
  deriving Repr, DecidableEq

/-- `line.rstrip('\n')`. -/
def rstripNewline (s : String) : String :=
  s.dropRightWhile (fun c => c = '\n')

/-- `write_worktodo` from
`deprecated_python_files/fixed_prime95_integration.py`: with no lines it
returns without touching the file; otherwise, when appending to an existing
file, `backup_file` first copies the current content to a timestamped
backup; then the lines are written (each as `line.rstrip('\n') + "\n"`) in
append or truncate mode. -/
def write_worktodo (fs : WorkFS) (lines : List String) (append : Bool) :
    WorkFS :=
  if lines = [] then fs
  else
    let payload := String.join (lines.map (fun l => rstripNewline l ++ "\n"))
    match append, fs.worktodo with
    | true, some old =>
        { worktodo := some (old ++ payload), backups := old :: fs.backups }
    | true, none => { fs with worktodo := some payload }
    | false, _ => { fs with worktodo := some payload }

end FixedP95

/-! ## Theorems -/

namespace AdvancedFinder

theorem llIter_eq_iterate (m : Int) (k : Nat) (s : Int) :
    llIter m k s = (llStep m)^[k] s := by
  induction k generalizing s with
  | zero => rfl
  | succ n ih =>
      rw [llIter, ih, Function.iterate_succ_apply]

theorem llSpecSeq_eq_iterate (p : Nat) (k : Nat) :
    llSpecSeq p k = (llStep ((2 : Int) ^ p - 1))^[k] 4 := by
  induction k with
  | zero => rfl
  | succ n ih =>
      rw [llSpecSeq, ih, Function.iterate_succ_apply', llStep, pow_two]

end AdvancedFinder

set_option maxRecDepth 4000 in
/-- C1: for every `p ≥ 2` on which the loop of `_lucas_lehmer_test` runs to
completion (it always does: the loop has no early exit), the verdict is
computed by initializing `s = 4` and iterating `s ← (s² - 2) mod (2^p - 1)`
exactly `p - 2` times, returning PRIME (`true`) iff the final `s` is `0`,
with `p = 2` returning PRIME directly; the tester returns PRIME on every
`p ∈ {3,5,7,13,17,19,31,61,89,107,127}` and COMPOSITE (`false`) on every
`p ∈ {11,23,29}`. -/
theorem C1_lucas_lehmer_verdict :
    (∀ p : Nat, 2 < p →
      (AdvancedFinder.lucas_lehmer_test p = true ↔
        AdvancedFinder.llSpecSeq p (p - 2) = 0))
    ∧ AdvancedFinder.lucas_lehmer_test 2 = true
    ∧ (∀ p ∈ ([3, 5, 7, 13, 17, 19, 31, 61, 89, 107, 127] : List Nat),
        AdvancedFinder.lucas_lehmer_test p = true)
    ∧ (∀ p ∈ ([11, 23, 29] : List Nat),
        AdvancedFinder.lucas_lehmer_test p = false) := by
  refine ⟨?_, by decide, by decide, by decide⟩
  intro p hp
  have hp2 : p ≠ 2 := by omega
  rw [AdvancedFinder.lucas_lehmer_test, if_neg hp2,
    AdvancedFinder.llIter_eq_iterate, AdvancedFinder.llSpecSeq_eq_iterate,
    beq_iff_eq]

/-- Witness for C1 at the concrete exponent 31. -/
theorem C1_lucas_lehmer_verdict_witness :
    AdvancedFinder.lucas_lehmer_test 31 = true :=
  C1_lucas_lehmer_verdict.2.2.1 31 (by decide)

namespace Enhanced

theorem timeout_verdict_false (timedOut : Nat → Bool) (p : Nat)
    (h : lucas_lehmer_completes timedOut p = false) :
    lucas_lehmer_test timedOut p = false := by
  by_cases hp : p = 2
  · rw [lucas_lehmer_completes, if_pos hp] at h
    exact absurd h (by simp)
  · rw [lucas_lehmer_completes, if_neg hp] at h
    rw [lucas_lehmer_test, if_neg hp]
    cases heq : llTimedLoop ((2 : Int) ^ p - 1) timedOut 0 (p - 2) 4 with
    | none => rfl
    | some s => rw [heq] at h; simp at h

end Enhanced

/-- C2 counterexample: the tester has no distinct TIMEOUT verdict.  With a
time oracle that trips immediately, testing `p = 13` (whose Mersenne number
is genuinely prime: the full loop answers `true`) does not complete and
returns `false` — the very same Boolean that a completed run returns for the
composite case `p = 11`.  So the timeout outcome is not distinct from
COMPOSITE. -/
theorem C2_counterexample :
    Enhanced.lucas_lehmer_completes (fun _ => true) 13 = false
    ∧ Enhanced.lucas_lehmer_test (fun _ => true) 13 = false
    ∧ Enhanced.lucas_lehmer_completes (fun _ => false) 11 = true
    ∧ Enhanced.lucas_lehmer_test (fun _ => false) 11 = false
    ∧ AdvancedFinder.lucas_lehmer_test 13 = true := by
  refine ⟨by decide, by decide, by decide, by decide, by decide⟩

/-- C2 amended: for every exponent and every time budget, when
`lucas_lehmer_test` (identical in `enhanced_mersenne_discovery.py` and
`revolutionary_mersenne_discovery.py`) exceeds its time budget before
completing the `p - 2` iterations, it returns the verdict `False` without
having established compositeness — the same Boolean value it uses for
COMPOSITE; it never returns `True` (PRIME) from the timeout path, and there
is no distinct TIMEOUT value in the returned verdict. -/
theorem C2_timeout_returns_false :
    ∀ (timedOut : Nat → Bool) (p : Nat),
      Enhanced.lucas_lehmer_completes timedOut p = false →
      Enhanced.lucas_lehmer_test timedOut p = false
      ∧ Revolutionary.lucas_lehmer_test timedOut p = false := by
  intro timedOut p h
  refine ⟨Enhanced.timeout_verdict_false timedOut p h, ?_⟩
  rw [Revolutionary.lucas_lehmer_test]
  exact Enhanced.timeout_verdict_false timedOut p h

/-- Witness for C2 amended: an immediately-tripping budget on `p = 13`. -/
theorem C2_timeout_returns_false_witness :
    Enhanced.lucas_lehmer_test (fun _ => true) 13 = false :=
  (C2_timeout_returns_false (fun _ => true) 13 (by decide)).1

/-- C6: incremental parsing of the external results log is offset-monotone.
First conjunct: if `parse_mersenne_findings` is called once returning
`new_offset = N` and is called again at `since_offset = N` with the file
unchanged, the second call returns an empty confirmed-exponent list and the
same offset `N`.  Second conjunct: with offset equal to the length of the
already-consumed prefix, `parse_results` parses exactly the appended suffix
— bytes below the offset are never re-parsed. -/
theorem C6_offset_monotone :
    (∀ (file : Option (List Char)) (since : Nat),
      (P95.parse_mersenne_findings file
          (P95.parse_mersenne_findings file since).new_offset).confirmed_exponents = []
      ∧ (P95.parse_mersenne_findings file
          (P95.parse_mersenne_findings file since).new_offset).new_offset =
        (P95.parse_mersenne_findings file since).new_offset)
    ∧ (∀ pre post : List Char,
        (P95.parse_results (some (pre ++ post)) pre.length).1 =
          P95.splitLines post) := by
  constructor
  · intro file since
    cases file with
    | none =>
        simp [P95.parse_mersenne_findings, P95.parse_results,
          P95.extract_confirmed_mersenne_primes]
    | some content =>
        simp [P95.parse_mersenne_findings, P95.parse_results,
          P95.extract_confirmed_mersenne_primes, P95.splitLines]
  · intro pre post
    have hmin : min pre.length (pre ++ post).length = pre.length := by
      simp [List.length_append]
    simp [P95.parse_results, hmin, List.drop_left]

/-- Witness for C6 on a concrete one-line log. -/
theorem C6_offset_monotone_witness :
    (P95.parse_mersenne_findings
        (some "M( 82589933 ) is prime!\n".data)
        (P95.parse_mersenne_findings
          (some "M( 82589933 ) is prime!\n".data) 0).new_offset).confirmed_exponents
      = [] :=
  (C6_offset_monotone.1 (some "M( 82589933 ) is prime!\n".data) 0).1

/-- C9: a candidate already present in the known-Mersenne-prime registry is
skipped by both per-candidate test routines: the result is `None` and the
Lucas–Lehmer test is never invoked (second component `false`), for every
time oracle. -/
theorem C9_known_exponents_skipped :
    ∀ (timedOut : Nat → Bool) (p : Nat),
      p ∈ AdvancedFinder.KNOWN_MERSENNE_EXPONENTS →
      Revolutionary.test_candidate timedOut p = (none, false)
      ∧ Enhanced.test_candidate_with_ll timedOut p = (none, false) := by
  intro timedOut p hp
  constructor
  · rw [Revolutionary.test_candidate]
    split
    · rfl
    · rw [if_pos (by exact hp)]
  · rw [Enhanced.test_candidate_with_ll]
    split
    · rfl
    · rw [if_pos (by exact hp)]

/-- Witness for C9 at the known exponent 82589933. -/
theorem C9_known_exponents_skipped_witness :
    Revolutionary.test_candidate (fun _ => false) 82589933 = (none, false) :=
  (C9_known_exponents_skipped (fun _ => false) 82589933 (by decide)).1

/-- C10: when the external results-log path does not exist, `parse_results`
(in both `prime95_integration.py` and `fixed_prime95_integration.py`)
returns an empty line list with `new_offset` equal to the passed-in
`since_bytes`, and `parse_mersenne_findings` accordingly returns an empty
confirmed-exponent list, the unchanged offset, and no lines; no exception
is raised (the functions are total on this input). -/
theorem C10_missing_log_file :
    ∀ since : Nat,
      P95.parse_results none since = ([], since)
      ∧ FixedP95.parse_results none since = ([], since)
      ∧ (P95.parse_mersenne_findings none since).confirmed_exponents = []
      ∧ (P95.parse_mersenne_findings none since).new_offset = since
      ∧ (P95.parse_mersenne_findings none since).lines = [] := by
  intro since
  refine ⟨rfl, rfl, rfl, rfl, rfl⟩

namespace Enhanced

set_option maxRecDepth 4000 in
theorem last_known_exponent_eq : last_known_exponent = 82589933 := by decide

theorem is_prime_mrScreen {p : Nat} (hbig : 82589933 < p)
    (hp : is_prime p = true) : mrScreen p = true := by
  rw [is_prime] at hp
  split_ifs at hp with g1 g2 g3 g4 g5
  · exact absurd hbig (by omega)
  · exact absurd hbig (by omega)
  · rw [mrScreen]; exact hp

end Enhanced

set_option maxRecDepth 200000 in
/-- C4 counterexample: the above-threshold branch of the screen is not a
20-round probabilistic Miller–Rabin test.  `341550071728321 =
10670053 · 32010157` is composite but is a strong pseudoprime to the fixed
base set `{2,3,5,7,11,13,17}` that `is_prime` uses for
`p ≥ 4,759,123,141`, so `is_valid_mersenne_exponent_candidate` accepts it;
yet a probabilistic 20-round run `_is_probably_prime` whose drawn bases
(all in the legal range `[2, p-2]`) include the witness 23 rejects it.
Hence "returns True only if ... passes ... a fixed probabilistic test of at
least 20 rounds above that threshold" fails at this input. -/
theorem C4_counterexample :
    Enhanced.is_valid_mersenne_exponent_candidate 341550071728321 = true
    ∧ 341550071728321 = 10670053 * 32010157
    ∧ 4759123141 ≤ 341550071728321
    ∧ (2 ≤ 23 ∧ 23 ≤ 341550071728321 - 2)
    ∧ AdvancedFinder.is_probably_prime (fun _ => 23) 341550071728321 20
        = false := by
  refine ⟨by decide, by decide, by decide, by decide, by decide⟩

/-- C4 amended: the fast admissibility filter
`is_valid_mersenne_exponent_candidate p` returns `True` only if `p` is odd,
`p` is strictly greater than the frontier 82,589,933, `p mod 4 ∈ {1,3}`,
`p mod 6 ∈ {1,5}` for `p > 3`, the last decimal digit of `p` is in
`{1,3,7,9}` for `p > 5`, and `p` passes the Miller–Rabin screen over the
threshold witness table — witness set `{2,3}` for `p < 1,373,653`,
`{31,73}` for `p < 9,080,191`, `{2,7,61}` for `p < 4,759,123,141`, and the
fixed deterministic set `{2,3,5,7,11,13,17}` (not a probabilistic
20-round test) at or above that threshold. -/
theorem C4_admissibility_only_if :
    ∀ p : Nat, Enhanced.is_valid_mersenne_exponent_candidate p = true →
      p % 2 = 1
      ∧ AdvancedFinder.LATEST_KNOWN_EXPONENT < p
      ∧ (p % 4 = 1 ∨ p % 4 = 3)
      ∧ (3 < p → p % 6 = 1 ∨ p % 6 = 5)
      ∧ (5 < p → p % 10 = 1 ∨ p % 10 = 3 ∨ p % 10 = 7 ∨ p % 10 = 9)
      ∧ Enhanced.mrScreen p = true := by
  intro p h
  rw [Enhanced.is_valid_mersenne_exponent_candidate] at h
  split_ifs at h with h1 h2 h3 h4 h5 h6 h7 h8 h9
  have hbig : 82589933 < p := by
    have := Enhanced.last_known_exponent_eq
    omega
  have hprime : Enhanced.is_prime p = true := by
    cases hv : Enhanced.is_prime p
    · exact absurd hv h3
    · rfl
  refine ⟨by omega, hbig, h4, fun h3p => ?_, fun h5p => ?_, ?_⟩
  · by_contra hc
    exact h5 ⟨h3p, hc⟩
  · by_contra hc
    exact h6 ⟨h5p, hc⟩
  · exact Enhanced.is_prime_mrScreen hbig hprime

set_option maxRecDepth 40000 in
/-- Witness for C4 amended at the admissible prime 99,999,989. -/
theorem C4_admissibility_only_if_witness :
    99999989 % 2 = 1 ∧ Enhanced.mrScreen 99999989 = true :=
  ⟨(C4_admissibility_only_if 99999989 (by decide)).1,
   (C4_admissibility_only_if 99999989 (by decide)).2.2.2.2.2⟩

/-- C5: `SearchState.last_exponent_tested` never decreases — every
`test_candidates` call leaves it unchanged on an empty batch and otherwise
sets it to the maximum of its previous value and the largest candidate of
the batch; and `run_search` passes to testing only candidates strictly
greater than `max(LATEST_KNOWN_EXPONENT, last_exponent_tested)`, so a
resumed run with stored high-water mark `L` never tests a candidate
`≤ L` (nor one `≤` the frontier), whatever the range start was. -/
theorem C5_resume_monotonicity :
    (∀ (st : AdvancedFinder.SearchState) (cands : List Nat),
      st.last_exponent_tested ≤
        (AdvancedFinder.test_candidates st cands).2.last_exponent_tested)
    ∧ (∀ (st : AdvancedFinder.SearchState) (cands : List Nat), cands ≠ [] →
        (AdvancedFinder.test_candidates st cands).2.last_exponent_tested =
          max st.last_exponent_tested (AdvancedFinder.listMax cands))
    ∧ (∀ (st : AdvancedFinder.SearchState) (all : List Nat) (p : Nat),
        p ∈ AdvancedFinder.filter_candidates_for_testing st all →
        st.last_exponent_tested < p
        ∧ AdvancedFinder.LATEST_KNOWN_EXPONENT < p) := by
  refine ⟨?_, ?_, ?_⟩
  · intro st cands
    rw [AdvancedFinder.test_candidates]
    split
    · exact le_refl _
    · exact le_max_left _ _
  · intro st cands hne
    rw [AdvancedFinder.test_candidates, if_neg hne]
  · intro st all p hp
    rw [AdvancedFinder.filter_candidates_for_testing] at hp
    have := (List.mem_filter.mp hp).2
    have h2 := of_decide_eq_true this
    omega

/-- Witness for C5 on a concrete state and batch. -/
theorem C5_resume_monotonicity_witness :
    (AdvancedFinder.test_candidates
        { last_exponent_tested := 82590000 } [82590007, 82590011]).2.last_exponent_tested
      = max 82590000 (AdvancedFinder.listMax [82590007, 82590011]) :=
  C5_resume_monotonicity.2.1 { last_exponent_tested := 82590000 }
    [82590007, 82590011] (by decide)

/-- C7: submission to the external verifier.  `generate_worktodo_lines`
emits the instruction lines `map (formatLine mode)` over the distinct
exponents greater than 1, in ascending order and without duplicates (one
line per distinct exponent); the per-mode formats are `Test=p` for LL,
`PRP=p,1` for PRP and `Pfactor=p` for trial factoring; and when
`write_worktodo` appends a nonempty line list to an existing work file, the
file's previous content is first copied into a backup and the new content
is the old content followed by the appended lines. -/
theorem C7_worktodo_submission :
    (∀ exps : List Nat,
      (P95.eligibleExponents exps).Nodup
      ∧ List.Sorted (· ≤ ·) (P95.eligibleExponents exps)
      ∧ (∀ p : Nat, p ∈ P95.eligibleExponents exps ↔ p ∈ exps ∧ 1 < p)
      ∧ P95.generate_worktodo_lines exps "LL" =
          (P95.eligibleExponents exps).map (fun q => "Test=" ++ Nat.repr q))
    ∧ (∀ p : Nat,
        P95.formatLine "LL" p = "Test=" ++ Nat.repr p
        ∧ P95.formatLine "PRP" p = "PRP=" ++ Nat.repr p ++ ",1"
        ∧ P95.formatLine "PFACTOR" p = "Pfactor=" ++ Nat.repr p)
    ∧ (∀ (lines : List String) (old : String) (bks : List String),
        lines ≠ [] →
        FixedP95.write_worktodo ⟨some old, bks⟩ lines true =
          ⟨some (old ++ String.join
              (lines.map (fun l => FixedP95.rstripNewline l ++ "\n"))),
            old :: bks⟩) := by
  refine ⟨?_, ?_, ?_⟩
  · intro exps
    refine ⟨?_, ?_, ?_, ?_⟩
    · exact ((List.perm_insertionSort (· ≤ ·) _).symm).nodup
        (List.nodup_dedup _)
    · exact List.sorted_insertionSort (· ≤ ·) _
    · intro p
      rw [P95.eligibleExponents]
      rw [(List.perm_insertionSort (· ≤ ·) _).mem_iff, List.mem_dedup,
        List.mem_filter]
      simp
    · rw [P95.generate_worktodo_lines]
      refine List.map_congr_left (fun a _ => ?_)
      rw [P95.formatLine, if_pos (by decide)]
  · intro p
    refine ⟨?_, ?_, ?_⟩
    · rw [P95.formatLine, if_pos (by decide)]
    · rw [P95.formatLine, if_neg (by decide), if_pos (by decide)]
    · rw [P95.formatLine, if_neg (by decide), if_neg (by decide),
        if_pos (by decide)]
  · intro lines old bks hne
    rw [FixedP95.write_worktodo, if_neg hne]

/-- Witness for C7's append/backup clause at a concrete file state. -/
theorem C7_worktodo_submission_witness :
    FixedP95.write_worktodo ⟨some "Test=82590007\n", []⟩ ["Test=82590011"] true
      = ⟨some ("Test=82590007\n" ++ String.join
            (["Test=82590011"].map (fun l => FixedP95.rstripNewline l ++ "\n"))),
          ["Test=82590007\n"]⟩ :=
  C7_worktodo_submission.2.2 ["Test=82590011"] "Test=82590007\n" []
    (by decide)

namespace Enhanced

theorem is_valid_props {p : Nat}
    (h : is_valid_mersenne_exponent_candidate p = true) :
    p % 2 = 1 ∧ 82589933 < p := by
  rw [is_valid_mersenne_exponent_candidate] at h
  split_ifs at h with h1 h2 h3 h4 h5 h6 h7 h8 h9
  have := last_known_exponent_eq
  omega

theorem genStrat1_mem (valid : Nat → Bool) (grow : Nat → Nat)
    (endR cap : Nat) :
    ∀ (fuel current : Nat) (acc : List Nat) (x : Nat),
      x ∈ genStrat1 valid grow endR cap fuel current acc →
      x ∈ acc ∨ (valid x = true ∧ current < x ∧ x < endR) := by
  intro fuel
  induction fuel with
  | zero => exact fun current acc x hx => Or.inl hx
  | succ n ih =>
      intro current acc x hx
      simp only [genStrat1] at hx
      split_ifs at hx with hcond hnext hval
      · rcases ih _ _ _ hx with hmem | ⟨hv, hlt, hend⟩
        · rcases List.mem_append.mp hmem with h | h
          · exact Or.inl h
          · have hx2 : x = grow current := List.mem_singleton.mp h
            subst hx2
            exact Or.inr ⟨hval, hnext.1, hnext.2⟩
        · exact Or.inr ⟨hv, lt_trans hnext.1 hlt, hend⟩
      · rcases ih _ _ _ hx with hmem | ⟨hv, hlt, hend⟩
        · exact Or.inl hmem
        · exact Or.inr ⟨hv, lt_trans hnext.1 hlt, hend⟩
      · rcases ih _ _ _ hx with hmem | ⟨hv, hlt, hend⟩
        · exact Or.inl hmem
        · exact Or.inr ⟨hv, by omega, hend⟩
      · exact Or.inl hx

theorem genStrat2_mem (valid : Nat → Bool) (effStart endR cap gapStep : Nat) :
    ∀ (fuel predicted : Nat) (acc : List Nat) (x : Nat),
      x ∈ genStrat2 valid effStart endR cap gapStep fuel predicted acc →
      x ∈ acc ∨ (valid x = true ∧ effStart < x ∧ x < endR) := by
  intro fuel
  induction fuel with
  | zero => exact fun predicted acc x hx => Or.inl hx
  | succ n ih =>
      intro predicted acc x hx
      simp only [genStrat2] at hx
      split_ifs at hx with hcond happ
      · rcases ih _ _ _ hx with hmem | hq
        · rcases List.mem_append.mp hmem with h | h
          · exact Or.inl h
          · have hx2 : x = predicted := List.mem_singleton.mp h
            subst hx2
            exact Or.inr ⟨happ.2, happ.1, hcond.1⟩
        · exact Or.inr hq
      · rcases ih _ _ _ hx with hmem | hq
        · exact Or.inl hmem
        · exact Or.inr hq
      · exact Or.inl hx

theorem genStrat3One_mem (valid : Nat → Bool) (effStart endR cap : Nat) :
    ∀ (fuel current : Nat) (acc : List Nat) (x : Nat),
      x ∈ genStrat3One valid effStart endR cap fuel current acc →
      x ∈ acc ∨ (valid x = true ∧ effStart < x ∧ x < endR) := by
  intro fuel
  induction fuel with
  | zero => exact fun current acc x hx => Or.inl hx
  | succ n ih =>
      intro current acc x hx
      simp only [genStrat3One] at hx
      split_ifs at hx with hcond happ
      · rcases ih _ _ _ hx with hmem | hq
        · rcases List.mem_append.mp hmem with h | h
          · exact Or.inl h
          · have hx2 : x = current := List.mem_singleton.mp h
            subst hx2
            exact Or.inr ⟨happ.2, happ.1, hcond.1⟩
        · exact Or.inr hq
      · rcases ih _ _ _ hx with hmem | hq
        · exact Or.inl hmem
        · exact Or.inr hq
      · exact Or.inl hx

theorem genStrat3_mem (valid : Nat → Bool) (effStart endR cap fuel : Nat)
    (mods : List Nat) :
    ∀ (acc : List Nat) (x : Nat),
      x ∈ genStrat3 valid effStart endR cap fuel mods acc →
      x ∈ acc ∨ (valid x = true ∧ effStart < x ∧ x < endR) := by
  induction mods with
  | nil => exact fun acc x hx => Or.inl hx
  | cons m t ih =>
      intro acc x hx
      rw [genStrat3, List.foldl_cons] at hx
      have hx' : x ∈ genStrat3 valid effStart endR cap fuel t
          (genStrat3One valid effStart endR cap fuel
            (effStart - effStart % 210 + m) acc) := by
        rw [genStrat3]; exact hx
      rcases ih _ _ hx' with hmem | hq
      · exact genStrat3One_mem valid effStart endR cap fuel _ _ _ hmem
      · exact Or.inr hq

theorem genStrat4_mem (valid : Nat → Bool) (endR count : Nat)
    (bf : Nat → Nat) (effStart : Nat) (hbf : ∀ i, effStart ≤ bf i) :
    ∀ (fuel attempt : Nat) (acc : List Nat) (x : Nat),
      x ∈ genStrat4 valid endR count bf fuel attempt acc →
      x ∈ acc ∨ (valid x = true ∧ effStart ≤ x ∧ x ≤ endR) := by
  intro fuel
  induction fuel with
  | zero => exact fun attempt acc x hx => Or.inl hx
  | succ n ih =>
      intro attempt acc x hx
      have hbump : effStart ≤ bumpOdd (bf attempt) := by
        have := hbf attempt
        rw [bumpOdd]
        split <;> omega
      simp only [genStrat4] at hx
      split_ifs at hx with hcond happ
      · rcases ih _ _ _ hx with hmem | hq
        · rcases List.mem_append.mp hmem with h | h
          · exact Or.inl h
          · have hx2 := List.mem_singleton.mp h
            subst hx2
            exact Or.inr ⟨happ.2.2, hbump, happ.2.1⟩
        · exact Or.inr hq
      · rcases ih _ _ _ hx with hmem | hq
        · exact Or.inl hmem
        · exact Or.inr hq
      · exact Or.inl hx

theorem sortedSet_mem (l : List Nat) (x : Nat) : x ∈ sortedSet l ↔ x ∈ l := by
  rw [sortedSet, (List.perm_insertionSort (· ≤ ·) _).mem_iff, List.mem_dedup]

theorem sortedSet_nodup (l : List Nat) : (sortedSet l).Nodup :=
  ((List.perm_insertionSort (· ≤ ·) _).symm).nodup (List.nodup_dedup l)

theorem sortedSet_sorted (l : List Nat) :
    List.Sorted (· ≤ ·) (sortedSet l) :=
  List.sorted_insertionSort (· ≤ ·) _

end Enhanced

namespace Enhanced

theorem strat1Stage_mem (valid : Nat → Bool) (P : GenParams)
    (fuel effStart endR count : Nat) (x : Nat)
    (hx : x ∈ strat1Stage valid P fuel effStart endR count) :
    valid x = true ∧ effStart < x ∧ x < endR := by
  rw [strat1Stage] at hx
  split_ifs at hx with hw
  · rcases genStrat1_mem valid P.grow endR (count / 3) fuel effStart [] x hx
      with hmem | hq
    · exact absurd hmem (List.not_mem_nil x)
    · exact hq
  · exact absurd hx (List.not_mem_nil x)

theorem strat2Stage_mem (valid : Nat → Bool) (P : GenParams)
    (fuel effStart endR count : Nat) (acc : List Nat) (x : Nat)
    (hx : x ∈ strat2Stage valid P fuel effStart endR count acc) :
    x ∈ acc ∨ (valid x = true ∧ effStart < x ∧ x < endR) := by
  rw [strat2Stage] at hx
  split_ifs at hx with hg
  · exact genStrat2_mem valid effStart endR (count / 3) P.gapStep fuel
      P.gapInit acc x hx
  · exact Or.inl hx

theorem strat4Stage_mem (valid : Nat → Bool) (P : GenParams)
    (endR count : Nat) (acc : List Nat) (x : Nat) (effStart : Nat)
    (hbf : ∀ i, effStart ≤ P.bf i)
    (hx : x ∈ strat4Stage valid P endR count acc) :
    x ∈ acc ∨ (valid x = true ∧ effStart ≤ x ∧ x ≤ endR) := by
  rw [strat4Stage] at hx
  split_ifs at hx with hr
  · exact genStrat4_mem valid endR count P.bf effStart hbf _ _ acc x hx
  · exact Or.inl hx

end Enhanced

set_option maxRecDepth 40000 in
/-- C3 counterexample, refuting two parts of the claim on the code.
(1) The generator of `advanced_candidate_generator.py` enforces neither
oddness nor the frontier: its exponential strategy unconditionally appends
`start` itself before drawing any randomness, so with `start = 85,000,000`
(an even number) the returned set contains an even element whatever the
unseeded draws are; here it is evaluated at one legal assignment of the
draw oracles (increments ≈ `current·growth_rate`; density acceptance is
forced for these unmapped candidates, so `sel` is never consulted; the
seeded backfill draws 85,000,001).
(2) The generator of `enhanced_mersenne_discovery.py` draws its backfill
with `random.randint(effective_start, end)` — `end` INCLUSIVE — so the
admissible prime 99,999,989 is returned for `(start, end) =
(99999988, 99999989)` even though it is not `< end`: the set is not
contained in the half-open `[start, end)`. -/
theorem C3_counterexample :
    (85000000 % 2 = 0
     ∧ 85000000 ∈ AdvGen.generate_intelligent_candidates
         ⟨fun _ => 25000000, fun _ => 1651798, 107, fun _ => false,
          fun _ => 85000001⟩ ⟨3, 2, 2, 1, 1⟩ 10
         85000000 85000010 10)
    ∧ 99999989 ∈ Enhanced.generate_candidates_after_52nd
        ⟨false, fun c => c, true, 84241731, 1816978, [107, 1, 13],
         fun _ => 99999989⟩ 10 99999988 99999989 1 := by
  exact ⟨⟨by decide, by decide⟩, by decide⟩

/-- C3 amended: for every call of `generate_candidates_after_52nd` (the
enhanced generator) with backfill draws within their `randint` range, every
element of the returned set is odd, strictly greater than the frontier
82,589,933 (hence greater than the frontier even when `start` is not),
and lies within the closed range `[start, end]` (the seeded backfill uses
an inclusive upper bound, so `end` itself can be returned); the set is
duplicate-free, sorted ascending, and has at most `count` elements; and if
`max(start, frontier+1) > end` the result is empty.  (The generator of
`advanced_candidate_generator.py` guarantees neither oddness nor the
frontier bound — see the counterexample.) -/
theorem C3_candidate_set_properties :
    ∀ (P : Enhanced.GenParams) (fuel start endR count : Nat),
      (∀ i, max start (Enhanced.last_known_exponent + 1) ≤ P.bf i) →
      (∀ x ∈ Enhanced.generate_candidates_after_52nd P fuel start endR count,
          x % 2 = 1 ∧ 82589933 < x ∧ start ≤ x ∧ x ≤ endR)
      ∧ (Enhanced.generate_candidates_after_52nd P fuel start endR count).Nodup
      ∧ List.Sorted (· ≤ ·)
          (Enhanced.generate_candidates_after_52nd P fuel start endR count)
      ∧ (Enhanced.generate_candidates_after_52nd P fuel start endR
          count).length ≤ count
      ∧ (endR < max start (Enhanced.last_known_exponent + 1) →
          Enhanced.generate_candidates_after_52nd P fuel start endR count
            = []) := by
  intro P fuel start endR count hbf
  by_cases hemp : endR < max start (Enhanced.last_known_exponent + 1)
  · rw [Enhanced.generate_candidates_after_52nd, if_pos hemp]
    exact ⟨by simp, List.nodup_nil, List.sorted_nil, by simp, fun _ => rfl⟩
  · rw [Enhanced.generate_candidates_after_52nd, if_neg hemp]
    refine ⟨?_, ?_, ?_, ?_, fun h => absurd h hemp⟩
    · intro x hx
      have hx1 := (List.take_sublist _ _).subset hx
      rw [Enhanced.sortedSet_mem] at hx1
      have hQ : Enhanced.is_valid_mersenne_exponent_candidate x = true
          ∧ max start (Enhanced.last_known_exponent + 1) ≤ x ∧ x ≤ endR := by
        rcases Enhanced.strat4Stage_mem _ _ _ _ _ _ _ hbf hx1 with h | h
        · rcases Enhanced.genStrat3_mem _ _ _ _ _ _ _ _ h with h2 | h2
          · rcases Enhanced.strat2Stage_mem _ _ _ _ _ _ _ _ h2 with h3 | h3
            · have h4 := Enhanced.strat1Stage_mem _ _ _ _ _ _ _ h3
              exact ⟨h4.1, le_of_lt h4.2.1, le_of_lt h4.2.2⟩
            · exact ⟨h3.1, le_of_lt h3.2.1, le_of_lt h3.2.2⟩
          · exact ⟨h2.1, le_of_lt h2.2.1, le_of_lt h2.2.2⟩
        · exact ⟨h.1, h.2.1, h.2.2⟩
      have hodd := Enhanced.is_valid_props hQ.1
      refine ⟨hodd.1, hodd.2, ?_, hQ.2.2⟩
      have hsm : start ≤ max start (Enhanced.last_known_exponent + 1) :=
        le_max_left _ _
      omega
    · exact List.Pairwise.sublist (List.take_sublist _ _)
        (Enhanced.sortedSet_nodup _)
    · exact List.Pairwise.sublist (List.take_sublist _ _)
        (Enhanced.sortedSet_sorted _)
    · rw [List.length_take]
      exact min_le_left _ _

set_option maxRecDepth 40000 in
/-- Witness for C3 amended on a concrete call. -/
theorem C3_candidate_set_properties_witness :
    (Enhanced.generate_candidates_after_52nd
        ⟨false, fun c => c, true, 84241731, 1816978, [107, 1, 13],
         fun _ => 99999989⟩ 10 99999988 100000100 5).Nodup :=
  (C3_candidate_set_properties
    ⟨false, fun c => c, true, 84241731, 1816978, [107, 1, 13],
     fun _ => 99999989⟩ 10 99999988 100000100 5
    (fun _ => by
      show max 99999988 (Enhanced.last_known_exponent + 1) ≤ 99999989
      decide)).2.1

set_option maxRecDepth 40000 in
/-- C8 counterexample: two calls of `generate_intelligent_candidates`
(`advanced_candidate_generator.py`) with identical `(start, end, count) =
(1000, 1100, 10)`, the same registry-derived statistics and the SAME
seeded backfill stream return different candidate sets when their unseeded
`np.random` draws differ.  The two runs differ only in the density
strategy's acceptance draws `sel`: every candidate of `[1000, 1100)` lies
in the density map's `[1000, 10000)` band, whose weight is
`(8/9000) / (14/999) ≈ 0.0634` — strictly between 0 and 1 — so
`np.random.random() < weight` genuinely takes both outcomes and both
assignments (`A`: every draw rejects; `B`: exactly the draw at 1050
accepts) are possible executions.  The shared exponential increment 300
at current 1000 lies in the legal float range `[280, 420]` of
`int(current · 0.350725 · (0.8 + 0.4u))`, the shared gap step 1651798 is
the mean-sized draw `int(gap_mean + 0)`, and the shared backfill draw
1099 is in `randint(1000, 1100)`'s range.  The outputs differ (1050
belongs only to the second), so the explicitly seeded backfill is not the
generator's only randomness. -/
theorem C8_counterexample :
    AdvGen.generate_intelligent_candidates
        ⟨fun _ => 300, fun _ => 1651798, 107,
         fun _ => false, fun _ => 1099⟩ ⟨3, 2, 2, 1, 1⟩ 50 1000 1100 10
      ≠ AdvGen.generate_intelligent_candidates
        ⟨fun _ => 300, fun _ => 1651798, 107,
         fun c => c == 1050, fun _ => 1099⟩
        ⟨3, 2, 2, 1, 1⟩ 50 1000 1100 10 := by decide

/-- C8 amended: the enhanced generator `generate_candidates_after_52nd` is
deterministic — its result is a function of `(start, end, count)`, the
registry-derived pattern statistics, and the backfill stream, which the
source fixes by calling `random.seed(42)` immediately before its only
random draws; two calls agreeing on these return identical sets.  The
generator of `advanced_candidate_generator.py`, by contrast, also consumes
unseeded `np.random` draws in its exponential, gap-based and
density-weighted strategies, so identical calls there need not coincide
(see the counterexample). -/
theorem C8_seeded_determinism :
    ∀ (P P' : Enhanced.GenParams) (fuel start endR count : Nat),
      P.wExpGtHalf = P'.wExpGtHalf → P.grow = P'.grow →
      P.avgGapPos = P'.avgGapPos → P.gapInit = P'.gapInit →
      P.gapStep = P'.gapStep → P.mods = P'.mods →
      (∀ i, P.bf i = P'.bf i) →
      Enhanced.generate_candidates_after_52nd P fuel start endR count =
        Enhanced.generate_candidates_after_52nd P' fuel start endR count := by
  intro P P' fuel start endR count h1 h2 h3 h4 h5 h6 h7
  have hbf : P.bf = P'.bf := funext h7
  have hPP : P = P' := by
    cases P
    cases P'
    simp_all
  rw [hPP]

/-- Witness for C8 amended on a concrete repeated call. -/
theorem C8_seeded_determinism_witness :
    Enhanced.generate_candidates_after_52nd
        ⟨false, id, true, 84241731, 1816978, [107, 1, 13], fun _ => 99999989⟩
        5 99999988 99999990 1
      = Enhanced.generate_candidates_after_52nd
        ⟨false, id, true, 84241731, 1816978, [107, 1, 13], fun _ => 99999989⟩
        5 99999988 99999990 1 :=
  C8_seeded_determinism _ _ 5 99999988 99999990 1 rfl rfl rfl rfl rfl rfl
    (fun _ => rfl)

namespace MR

theorem powModAux_eq (n : Nat) :
    ∀ (fuel b a : Nat), b ≤ fuel → powModAux n fuel a b = a ^ b % n := by
  intro fuel
  induction fuel with
  | zero =>
      intro b a hb
      have hb0 : b = 0 := by omega
      subst hb0
      rw [powModAux, pow_zero]
  | succ f ih =>
      intro b a hb
      rw [powModAux]
      split_ifs with hb0 hodd
      · subst hb0; rw [pow_zero]
      · have hb2 : b / 2 ≤ f := by omega
        rw [ih (b / 2) (a * a % n) hb2, ← Nat.pow_mod, ← pow_two,
          ← pow_mul, Nat.mod_mul_mod, ← pow_succ]
        have hbe : 2 * (b / 2) + 1 = b := by omega
        rw [hbe]
      · have hb2 : b / 2 ≤ f := by omega
        rw [ih (b / 2) (a * a % n) hb2, ← Nat.pow_mod, ← pow_two, ← pow_mul]
        have hbe : 2 * (b / 2) = b := by omega
        rw [hbe]

/-- `powMod` computes Python's `pow(a, b, n)`, i.e. `a ^ b % n`. -/
theorem powMod_eq (a b n : Nat) : powMod a b n = a ^ b % n := by
  rw [powMod, powModAux_eq n b b (a % n) le_rfl, ← Nat.pow_mod]

theorem factorTwoAux_spec :
    ∀ (fuel d : Nat), 0 < d → d ≤ fuel →
      (factorTwoAux fuel d).1 % 2 = 1
      ∧ (factorTwoAux fuel d).1 * 2 ^ (factorTwoAux fuel d).2 = d := by
  intro fuel
  induction fuel with
  | zero => intro d hd hle; omega
  | succ f ih =>
      intro d hd hle
      rw [factorTwoAux]
      split_ifs with heven
      · have hpos : 0 < d / 2 := by omega
        have hlt : d / 2 ≤ f := by omega
        have h := ih (d / 2) hpos hlt
        refine ⟨h.1, ?_⟩
        show (factorTwoAux f (d / 2)).1 * 2 ^ ((factorTwoAux f (d / 2)).2 + 1) = d
        rw [pow_succ, ← mul_assoc, h.2]
        omega
      · exact ⟨by omega, by rw [pow_zero, Nat.mul_one]⟩

/-- `factorTwo` computes the decomposition `d · 2^r` with `d` odd that the
`while d % 2 == 0` loop of the sources produces. -/
theorem factorTwo_spec (m : Nat) (hm : 0 < m) :
    (factorTwo m).1 % 2 = 1 ∧ (factorTwo m).1 * 2 ^ (factorTwo m).2 = m :=
  factorTwoAux_spec m m hm le_rfl

end MR

namespace Enhanced

theorem llTimedLoop_some (m : Int) (t : Nat → Bool) :
    ∀ (k i : Nat) (s s' : Int), llTimedLoop m t i k s = some s' →
      AdvancedFinder.llIter m k s = s' := by
  intro k
  induction k with
  | zero =>
      intro i s s' h
      rw [llTimedLoop] at h
      exact (Option.some_inj.mp h : s = s')
  | succ n ih =>
      intro i s s' h
      rw [llTimedLoop] at h
      split_ifs at h with ht
      rw [AdvancedFinder.llIter]
      exact ih _ _ _ h

/-- When the timed Lucas–Lehmer loop runs to completion, the verdict of the
timed tester coincides with that of the untimed `_lucas_lehmer_test`
verified in C1. -/
theorem completed_agrees (t : Nat → Bool) (p : Nat)
    (h : lucas_lehmer_completes t p = true) :
    lucas_lehmer_test t p = AdvancedFinder.lucas_lehmer_test p := by
  by_cases hp : p = 2
  · rw [lucas_lehmer_test, if_pos hp, AdvancedFinder.lucas_lehmer_test,
      if_pos hp]
  · rw [lucas_lehmer_completes, if_neg hp] at h
    rw [lucas_lehmer_test, if_neg hp, AdvancedFinder.lucas_lehmer_test,
      if_neg hp]
    cases heq : llTimedLoop ((2 : Int) ^ p - 1) t 0 (p - 2) 4 with
    | none => rw [heq] at h; simp at h
    | some s => rw [llTimedLoop_some _ _ _ _ _ _ heq]

theorem bitLength_boundary :
    bitLength 0 = 1 ∧ bitLength 1 = 1 ∧ bitLength 524287 = 19
    ∧ bitLength 524288 = 20 := by
  refine ⟨rfl, rfl, by decide, by decide⟩

end Enhanced
